import Mathlib

/-!
Shallow embedding of the PZ-Emporium client-side code:
the `ShoppingCart` class (src/unnamed/part_000, a concatenation of the
README and `js/cart.js`) and the `DataLoader` class (src/js/data-loader.js).

Modelling conventions:
* JavaScript numbers are modelled as `Option ℚ` (`none` = NaN); the
  arithmetic the code performs is `+` on numbers with NaN propagation.
* JavaScript values that can appear in cart-item fields are modelled by
  `JSValue` (undefined, null, booleans, numbers, strings).
* `localStorage` content is modelled at two levels: as an abstract JSON
  tree (`Json`) for the save/load round trip, and as a raw `Option String`
  together with an executable JSON parser for the load-error claims.
* DOM side effects (badge, modal, `window.siteContent`) are not part of
  the claims and are omitted; user-visible notifications/alerts are
  modelled as explicit output values.
-/

namespace PZ

/-- JavaScript values that can flow into cart-item fields.
`numV none` is NaN. -/
inductive JSValue where
  | undef
  | nullV
  | boolV (b : Bool)
  | numV (n : Option ℚ)
  | strV (s : String)
deriving DecidableEq, Repr

/-- JavaScript truthiness: `undefined`, `null`, `false`, `0`, `NaN` and
`""` are falsy, everything else truthy.  This is what `a || b` tests. -/
def truthy : JSValue → Bool
  | .undef => false
  | .nullV => false
  | .boolV b => b
  | .numV none => false
  | .numV (some q) => q ≠ 0
  | .strV s => s ≠ ""

/-- One decimal digit as a natural number. -/
def digitVal (c : Char) : ℕ := c.toNat - '0'.toNat

/-- Split off a maximal run of decimal digits, returning their value,
how many there were, and the rest of the input. -/
def readDigits : List Char → ℕ → ℕ → (ℕ × ℕ × List Char)
  | c :: cs, acc, k =>
    if c.isDigit then readDigits cs (10 * acc + digitVal c) (k + 1)
    else (acc, k, c :: cs)
  | [], acc, k => (acc, k, [])

/-- JavaScript whitespace characters skipped by `parseFloat`/`JSON.parse`
(the common ones). -/
def isWs (c : Char) : Bool :=
  c = ' ' ∨ c = '\t' ∨ c = '\n' ∨ c = '\r'

/-- Leading-prefix float parsing of a character list: optional sign,
digits with an optional fractional part, and an optional exponent.
Returns NaN (`none`) when no digit is found, like JS `parseFloat`. -/
def parseFloatCore (cs : List Char) : Option ℚ :=
  let cs := cs.dropWhile isWs
  let (sign, cs) :=
    match cs with
    | '-' :: rest => ((-1 : ℚ), rest)
    | '+' :: rest => ((1 : ℚ), rest)
    | rest => ((1 : ℚ), rest)
  let (ip, ik, cs) := readDigits cs 0 0
  let (fp, fk, cs) :=
    match cs with
    | '.' :: rest =>
      let (fv, fk, rest) := readDigits rest 0 0
      (fv, fk, rest)
    | rest => (0, 0, rest)
  if ik + fk = 0 then none
  else
    let mantissa : ℚ := (ip : ℚ) + (fp : ℚ) / (10 : ℚ) ^ fk
    let expPart : ℚ :=
      match cs with
      | e :: rest =>
        if e = 'e' ∨ e = 'E' then
          let (esign, rest) :=
            match rest with
            | '-' :: r => ((-1 : ℤ), r)
            | '+' :: r => ((1 : ℤ), r)
            | r => ((1 : ℤ), r)
          let (ev, ek, _) := readDigits rest 0 0
          if ek = 0 then 1 else (10 : ℚ) ^ (esign * (ev : ℤ))
        else 1
      | [] => 1
    sign * mantissa * expPart

/-- JS `parseFloat` applied to a value: non-strings are converted to their
string form first, so numbers parse back to themselves and `undefined`,
`null` and booleans give NaN. -/
def parseFloat : JSValue → Option ℚ
  | .numV n => n
  | .strV s => parseFloatCore s.data
  | _ => none

/-- An entry of `this.cart` as built by `ShoppingCart.addItem`:
five fields, with `price` a JS number (`none` = NaN). -/
structure StoredItem where
  id : JSValue
  name : JSValue
  price : Option ℚ
  description : JSValue
  type : JSValue
deriving DecidableEq, Repr

/-- The argument object passed to `addItem(item)`: any of the five
properties may be absent (i.e. `undefined`). -/
structure InputItem where
  id : JSValue
  name : JSValue
  price : JSValue
  description : JSValue
  type : JSValue
deriving DecidableEq, Repr

/-- The generated id `item-${Date.now()}` for a given clock reading. -/
def genId (now : ℕ) : JSValue := .strV ("item-" ++ toString now)

/-- The object literal pushed by `addItem`:
`{id: item.id || genId, name: item.name, price: parseFloat(item.price),
description: item.description || '', type: item.type || 'product'}`. -/
def normalizeItem (it : InputItem) (now : ℕ) : StoredItem :=
  { id := if truthy it.id then it.id else genId now
    name := it.name
    price := parseFloat it.price
    description := if truthy it.description then it.description else .strV ""
    type := if truthy it.type then it.type else .strV "product" }

/-- JSON trees, the image of `JSON.parse` / domain of `JSON.stringify`. -/
inductive Json where
  | jnull
  | jbool (b : Bool)
  | jnum (q : ℚ)
  | jstr (s : String)
  | jarr (elems : List Json)
  | jobj (fields : List (String × Json))
deriving Repr

/-- Serialization (`JSON.stringify`) of a field value: `undefined` fields are dropped from
objects (`none`), NaN serializes as `null`. -/
def jsValueToJson : JSValue → Option Json
  | .undef => none
  | .nullV => some .jnull
  | .boolV b => some (.jbool b)
  | .numV none => some .jnull
  | .numV (some q) => some (.jnum q)
  | .strV s => some (.jstr s)

/-- One key of the serialized item object (empty when the value is
`undefined`, which `JSON.stringify` omits). -/
def objField (k : String) (v : JSValue) : List (String × Json) :=
  match jsValueToJson v with
  | none => []
  | some j => [(k, j)]

/-- Serialization of one cart entry (`JSON.stringify`), keys in the insertion order of the
object literal in `addItem`. -/
def itemToJson (e : StoredItem) : Json :=
  .jobj (objField "id" e.id ++ objField "name" e.name ++
    objField "price" (.numV e.price) ++
    objField "description" e.description ++ objField "type" e.type)

/-- Serialization of the whole cart, `JSON.stringify(this.cart)`. -/
def cartToJson (c : List StoredItem) : Json :=
  .jarr (c.map itemToJson)

/-- The `ShoppingCart` instance state: the in-memory `this.cart` array and
the localStorage slot `pz-emporium-cart`, kept at JSON-tree level
(`none` = key absent). -/
structure CartState where
  cart : List StoredItem
  store : Option Json
deriving Repr

/-- The transient notifications emitted by `showNotification`. -/
inductive Notif where
  | added (name : JSValue)
  | removed (name : JSValue)
  | cleared
deriving DecidableEq, Repr

/-- Method `ShoppingCart.getItemCount`: `this.cart.length`. -/
def getItemCount (s : CartState) : ℕ := s.cart.length

/-- JS `+` on numbers: NaN-propagating rational addition. -/
def jsAdd (a b : Option ℚ) : Option ℚ :=
  match a, b with
  | some x, some y => some (x + y)
  | _, _ => none

/-- Method `ShoppingCart.getTotal`: `this.cart.reduce((sum, item) => sum + item.price, 0)`. -/
def getTotal (s : CartState) : Option ℚ :=
  s.cart.foldl (fun acc e => jsAdd acc e.price) (some 0)

/-- Method `ShoppingCart.saveCart`: serialize the in-memory cart into the store.
(The quota-exceeded catch branch leaves the store unchanged; storage
failures are outside the claims and the write is modelled as succeeding.) -/
def saveCart (s : CartState) : CartState :=
  { s with store := some (cartToJson s.cart) }

/-- Method `ShoppingCart.addItem`: push the normalized entry, save, notify with
the *input* item's name. -/
def addItem (it : InputItem) (now : ℕ) (s : CartState) : CartState × Notif :=
  let c := s.cart ++ [normalizeItem it now]
  (saveCart { s with cart := c }, .added it.name)

/-- Method `ShoppingCart.removeItem(index)`: inside the bounds check, splice out
the entry and notify with its name; otherwise do nothing at all. -/
def removeItem (i : ℤ) (s : CartState) : CartState × Option Notif :=
  if 0 ≤ i ∧ i < (s.cart.length : ℤ) then
    let idx := i.toNat
    let c := s.cart.take idx ++ s.cart.drop (idx + 1)
    (saveCart { s with cart := c },
      (s.cart.get? idx).map fun e => Notif.removed e.name)
  else (s, none)

/-- Method `ShoppingCart.clearCart`: empty the cart, save, notify. -/
def clearCart (s : CartState) : CartState × Notif :=
  (saveCart { s with cart := [] }, .cleared)

/-- The user-visible outcome of `checkout()`: the empty-cart alert, or the
order alert carrying the total it interpolates (`toFixed` formatting is
presentation and not modelled). -/
inductive CheckoutMsg where
  | emptyCart
  | order (total : Option ℚ)
deriving DecidableEq, Repr

/-- The page-level `checkout()` function: empty cart → alert and return
without touching anything; otherwise alert with the current total, then
`cart.clearCart()` (and close the modal, a DOM effect not modelled). -/
def checkout (s : CartState) : CartState × CheckoutMsg :=
  if getItemCount s = 0 then (s, .emptyCart)
  else
    let t := getTotal s
    ((clearCart s).1, .order t)

/-- One user-triggered cart mutation, for reasoning about operation
sequences. -/
inductive CartOp where
  | add (it : InputItem) (now : ℕ)
  | remove (i : ℤ)
  | clear
deriving Repr

/-- Apply one operation to the cart state. -/
def applyOp (s : CartState) : CartOp → CartState
  | .add it now => (addItem it now s).1
  | .remove i => (removeItem i s).1
  | .clear => (clearCart s).1

/-- Run a sequence of cart operations. -/
def execOps (s : CartState) (ops : List CartOp) : CartState :=
  ops.foldl applyOp s

/-- How many entries one operation actually removes from the given state:
an in-range remove deletes one, an out-of-range remove none, a clear
deletes everything present. -/
def opRemoved (s : CartState) : CartOp → ℕ
  | .add _ _ => 0
  | .remove i => if 0 ≤ i ∧ i < (s.cart.length : ℤ) then 1 else 0
  | .clear => s.cart.length

/-- Total number of entries removed along a run of operations. -/
def removedCount : CartState → List CartOp → ℕ
  | _, [] => 0
  | s, op :: ops => opRemoved s op + removedCount (applyOp s op) ops

/-- Number of `addItem` calls in a sequence. -/
def addsCount (ops : List CartOp) : ℕ :=
  (ops.filter fun op => match op with | .add _ _ => true | _ => false).length

/-! ### Reading the store back: JSON parsing and item decoding -/

/-- Reading a field of a parsed JS object: first matching key, absent key
gives `undefined`. (The serializer only produces distinct keys.) -/
def lookupField (fs : List (String × Json)) (k : String) : Option Json :=
  (fs.find? fun p => p.1 = k).map Prod.snd

/-- A parsed JSON scalar viewed as the JS value a field access returns;
arrays/objects in field position are not `JSValue`s and decode fails. -/
def jsonToJSValue : Json → Option JSValue
  | .jnull => some .nullV
  | .jbool b => some (.boolV b)
  | .jnum q => some (.numV (some q))
  | .jstr s => some (.strV s)
  | _ => none

/-- The JS value at key `k` of a parsed object: the stored scalar, or
`undefined` when the key is absent. -/
def fieldValue (fs : List (String × Json)) (k : String) : Option JSValue :=
  match lookupField fs k with
  | none => some .undef
  | some j => jsonToJSValue j

/-- Reading one cart entry back from its parsed JSON object,
field for field. -/
def itemOfJson : Json → Option StoredItem
  | .jobj fs =>
    match fieldValue fs "id", fieldValue fs "name",
      lookupField fs "price", fieldValue fs "description",
      fieldValue fs "type" with
    | some i, some n, some (.jnum q), some d, some t =>
      some { id := i, name := n, price := some q, description := d, type := t }
    | _, _, _, _, _ => none
  | _ => none

/-- Reading each element of a parsed JSON array as a cart entry. -/
def itemsOfJson : List Json → Option (List StoredItem)
  | [] => some []
  | j :: js =>
    match itemOfJson j, itemsOfJson js with
    | some e, some es => some (e :: es)
    | _, _ => none

/-- Reading a whole stored cart back from its parsed JSON array. -/
def cartOfJson : Json → Option (List StoredItem)
  | .jarr es => itemsOfJson es
  | _ => none

/-- Whether a JS value is a string. -/
def isStrV : JSValue → Bool
  | .strV _ => true
  | _ => false

/-- A cart entry whose fields fit the spec's `CartItem` shape: string id,
name, description and type, and a price that is an actual number. -/
def wfItem (e : StoredItem) : Bool :=
  isStrV e.id && isStrV e.name && e.price.isSome &&
    isStrV e.description && isStrV e.type

/-! ### An executable model of `JSON.parse` on raw strings

`loadCart` reads a raw string from localStorage and runs `JSON.parse` on
it inside a `try`; a throwing parse is modelled as the parser returning
`none`, which the catch turns into `[]`. -/

/-- Hexadecimal digit value, for `\uXXXX` escapes. -/
def hexVal (c : Char) : Option ℕ :=
  if '0' ≤ c ∧ c ≤ '9' then some (c.toNat - '0'.toNat)
  else if 'a' ≤ c ∧ c ≤ 'f' then some (c.toNat - 'a'.toNat + 10)
  else if 'A' ≤ c ∧ c ≤ 'F' then some (c.toNat - 'A'.toNat + 10)
  else none

/-- Decoding of a single-character JSON string escape. -/
def unescape (c : Char) : Option Char :=
  if c = '"' then some '"'
  else if c = '\\' then some '\\'
  else if c = '/' then some '/'
  else if c = 'b' then some (Char.ofNat 8)
  else if c = 'f' then some (Char.ofNat 12)
  else if c = 'n' then some '\n'
  else if c = 'r' then some '\r'
  else if c = 't' then some '\t'
  else none

/-- Body of a JSON string (after the opening quote): returns the decoded
characters and the input after the closing quote; unterminated strings,
bad escapes, and raw control characters are parse errors. -/
def parseStringBody : List Char → Option (List Char × List Char)
  | [] => none
  | '"' :: rest => some ([], rest)
  | '\\' :: 'u' :: h1 :: h2 :: h3 :: h4 :: rest =>
    match hexVal h1, hexVal h2, hexVal h3, hexVal h4 with
    | some a, some b, some c, some d =>
      (parseStringBody rest).map fun p =>
        (Char.ofNat (((a * 16 + b) * 16 + c) * 16 + d) :: p.1, p.2)
    | _, _, _, _ => none
  | '\\' :: c :: rest =>
    match unescape c with
    | some ch => (parseStringBody rest).map fun p => (ch :: p.1, p.2)
    | none => none
  | c :: rest =>
    if c.toNat < 32 then none
    else (parseStringBody rest).map fun p => (c :: p.1, p.2)

/-- Integer part of a JSON number: a single `0`, or a nonzero digit
followed by digits (JSON forbids leading zeros). -/
def parseIntPart : List Char → Option (ℕ × List Char)
  | '0' :: rest => some (0, rest)
  | c :: rest =>
    if c.isDigit ∧ c ≠ '0' then
      let (v, _, r) := readDigits (c :: rest) 0 0
      some (v, r)
    else none
  | [] => none

/-- A JSON number: optional minus, integer part, optional fraction with at
least one digit, optional exponent with at least one digit. -/
def parseJsonNumber (cs0 : List Char) : Option (ℚ × List Char) := do
  let (neg, cs) := match cs0 with
    | '-' :: r => (true, r)
    | r => (false, r)
  let (ip, cs) ← parseIntPart cs
  let (mant, cs) ←
    match cs with
    | '.' :: r =>
      let (fv, fk, r2) := readDigits r 0 0
      if fk = 0 then none
      else some ((ip : ℚ) + (fv : ℚ) / (10 : ℚ) ^ fk, r2)
    | r => some ((ip : ℚ), r)
  let (q, cs) ←
    match cs with
    | e :: r =>
      if e = 'e' ∨ e = 'E' then
        let (es, r2) : ℤ × List Char := match r with
          | '-' :: r2 => (-1, r2)
          | '+' :: r2 => (1, r2)
          | r2 => (1, r2)
        let (ev, ek, r3) := readDigits r2 0 0
        if ek = 0 then none
        else some (mant * (10 : ℚ) ^ (es * (ev : ℤ)), r3)
      else some (mant, e :: r)
    | [] => some (mant, ([] : List Char))
  some (if neg then -q else q, cs)

mutual

/-- One JSON value (fuel-indexed recursive-descent). -/
def parseVal : ℕ → List Char → Option (Json × List Char)
  | 0, _ => none
  | fuel + 1, cs =>
    match cs.dropWhile isWs with
    | 'n' :: 'u' :: 'l' :: 'l' :: rest => some (.jnull, rest)
    | 't' :: 'r' :: 'u' :: 'e' :: rest => some (.jbool true, rest)
    | 'f' :: 'a' :: 'l' :: 's' :: 'e' :: rest => some (.jbool false, rest)
    | '"' :: rest =>
      (parseStringBody rest).map fun p => (.jstr (String.mk p.1), p.2)
    | '[' :: rest =>
      (match rest.dropWhile isWs with
      | ']' :: r => some (.jarr [], r)
      | _ => (parseArrItems fuel rest).map fun p => (.jarr p.1, p.2))
    | '{' :: rest =>
      (match rest.dropWhile isWs with
      | '}' :: r => some (.jobj [], r)
      | _ => (parseObjItems fuel rest).map fun p => (.jobj p.1, p.2))
    | rest => (parseJsonNumber rest).map fun p => (.jnum p.1, p.2)

/-- Comma-separated array elements up to the closing bracket. -/
def parseArrItems : ℕ → List Char → Option (List Json × List Char)
  | 0, _ => none
  | fuel + 1, cs => do
    let (j, cs) ← parseVal fuel cs
    match cs.dropWhile isWs with
    | ',' :: rest =>
      let (js, cs2) ← parseArrItems fuel rest
      some (j :: js, cs2)
    | ']' :: rest => some ([j], rest)
    | _ => none

/-- Comma-separated `"key": value` pairs up to the closing brace. -/
def parseObjItems : ℕ → List Char → Option (List (String × Json) × List Char)
  | 0, _ => none
  | fuel + 1, cs => do
    let (k, cs) ←
      match cs.dropWhile isWs with
      | '"' :: rest => (parseStringBody rest).map fun p => (String.mk p.1, p.2)
      | _ => none
    let (v, cs) ←
      match cs.dropWhile isWs with
      | ':' :: rest => parseVal fuel rest
      | _ => none
    match cs.dropWhile isWs with
    | ',' :: rest =>
      let (kvs, cs2) ← parseObjItems fuel rest
      some ((k, v) :: kvs, cs2)
    | '}' :: rest => some ([(k, v)], rest)
    | _ => none

end

/-- Model of `JSON.parse`: a complete JSON value with only whitespace around it;
`none` models the parse throwing a `SyntaxError`. -/
def jsonParse (s : String) : Option Json :=
  match parseVal (2 * s.length + 2) s.data with
  | some (j, rest) => if rest.dropWhile isWs = [] then some j else none
  | none => none

/-- Method `ShoppingCart.loadCart` on the raw stored string (`none` = key
absent): `cartData ? JSON.parse(cartData) : []`, with the whole body in a
`try` whose catch returns `[]`.  Being a total function into `Json`, the
model never propagates an error. -/
def loadCart (raw : Option String) : Json :=
  match raw with
  | none => .jarr []
  | some s =>
    if s = "" then .jarr []
    else
      match jsonParse s with
      | none => .jarr []
      | some j => j

/-! ### DataLoader (src/js/data-loader.js) -/

/-- Outcome of one `fetch` + `response.json()` pipeline: the promise
rejects, the response is not ok, the body is not JSON, or a parsed
value. -/
inductive FetchResult where
  | netError
  | httpError
  | parseError
  | success (j : Json)
deriving Repr

/-- Method `DataLoader.loadJSON(filename)`.  In the source `useCache` is the
constant `false`, so the `this.cache` reads and writes are dead code and
every call goes to the network (with a cache-busting query parameter and
`cache: 'no-store'`, which affect only the URL/transport).  Any error in
the `try` is caught and replaced by `{}` for `content.json` and `[]`
otherwise. -/
def loadJSON (filename : String) (r : FetchResult) : Json :=
  match r with
  | .success j => j
  | _ => if filename = "content.json" then .jobj [] else .jarr []

/-- JS truthiness of a parsed JSON value (what `if (!this.content)`
tests). -/
def truthyJson : Json → Bool
  | .jnull => false
  | .jbool b => b
  | .jnum q => q ≠ 0
  | .jstr s => s ≠ ""
  | .jarr _ => true
  | .jobj _ => true

/-- The `DataLoader` instance state: `this.content`, initialized to `null` in
the constructor.  (`this.cache` is never consulted since `useCache` is
`false`.) -/
structure LoaderState where
  content : Json
deriving Repr

/-- The freshly constructed loader. -/
def initLoader : LoaderState := { content := .jnull }

/-- Method `DataLoader.loadContent()`: fetch `content.json` only when
`this.content` is falsy, else return the stored value.  Result: new
state, returned value, and whether a fetch was performed.  (The
`window.siteContent` assignment is a DOM effect, not modelled.) -/
def loadContent (st : LoaderState) (r : FetchResult) :
    LoaderState × Json × Bool :=
  if truthyJson st.content then (st, st.content, false)
  else
    let v := loadJSON "content.json" r
    ({ content := v }, v, true)

/-- Method `DataLoader.loadMods()`: an unconditional `loadJSON('mods.json')`. -/
def loadMods (st : LoaderState) (r : FetchResult) :
    LoaderState × Json × Bool :=
  (st, loadJSON "mods.json" r, true)

/-- Method `DataLoader.loadTools()`: an unconditional `loadJSON('tools.json')`. -/
def loadTools (st : LoaderState) (r : FetchResult) :
    LoaderState × Json × Bool :=
  (st, loadJSON "tools.json" r, true)

/-- Method `DataLoader.loadTips()`: an unconditional `loadJSON('tips.json')`. -/
def loadTips (st : LoaderState) (r : FetchResult) :
    LoaderState × Json × Bool :=
  (st, loadJSON "tips.json" r, true)

/-- The fold `reduce((sum, item) => sum + item.price, 0)` rephrased as a right
fold: the mathematical "sum of the prices" with NaN propagation. -/
def sumPrices (l : List (Option ℚ)) : Option ℚ :=
  l.foldr jsAdd (some 0)

/-! ## Supporting lemmas -/

theorem jsAdd_assoc (a b c : Option ℚ) :
    jsAdd (jsAdd a b) c = jsAdd a (jsAdd b c) := by
  cases a <;> cases b <;> cases c <;> simp [jsAdd, add_assoc]

theorem jsAdd_some_zero (a : Option ℚ) : jsAdd a (some 0) = a := by
  cases a <;> simp [jsAdd]

theorem foldl_jsAdd_eq (l : List (Option ℚ)) (a : Option ℚ) :
    l.foldl jsAdd a = jsAdd a (sumPrices l) := by
  induction l generalizing a with
  | nil => simp [sumPrices, jsAdd_some_zero]
  | cons b l ih =>
    simp only [List.foldl_cons, sumPrices, List.foldr_cons]
    rw [ih, ← jsAdd_assoc]
    rfl

theorem sumPrices_map_some (qs : List ℚ) :
    sumPrices (qs.map some) = some qs.sum := by
  induction qs with
  | nil => simp [sumPrices]
  | cons q qs ih =>
    simp only [List.map_cons, sumPrices, List.foldr_cons, List.sum_cons]
    rw [show (qs.map some).foldr jsAdd (some 0) = sumPrices (qs.map some) from rfl,
      ih]
    simp [jsAdd]

theorem removeItem_length (c : List StoredItem) (i : ℤ) (h0 : 0 ≤ i)
    (h1 : i < (c.length : ℤ)) :
    (c.take i.toNat ++ c.drop (i.toNat + 1)).length + 1 = c.length := by
  have hlt : i.toNat < c.length := by omega
  simp [List.length_append, List.length_take, List.length_drop]
  omega

/-- Contribution of one operation to the add count. -/
def isAdd : CartOp → ℕ
  | .add _ _ => 1
  | _ => 0

/-- The count-balance of a single operation: an `add` puts one entry in,
and `opRemoved` entries go out. -/
theorem applyOp_count (s : CartState) (op : CartOp) :
    getItemCount (applyOp s op) + opRemoved s op =
      getItemCount s + isAdd op := by
  cases op with
  | add it now =>
    simp [applyOp, addItem, saveCart, getItemCount, opRemoved, isAdd]
  | remove i =>
    by_cases h : 0 ≤ i ∧ i < (s.cart.length : ℤ)
    · simp only [applyOp, removeItem, h, if_true, opRemoved, getItemCount,
        saveCart, isAdd]
      exact removeItem_length s.cart i h.1 h.2
    · simp [applyOp, removeItem, h, opRemoved, getItemCount, isAdd]
  | clear =>
    simp [applyOp, clearCart, saveCart, getItemCount, opRemoved, isAdd]

/-! ## Claims -/

/-- C1: along any sequence of add/remove/clear operations from any
starting state, `getItemCount` (which is the length of the current items
list) changes by exactly the number of adds minus the entries actually
removed — one per in-range `removeItem`, none for an out-of-range
`removeItem`, and everything present for a `clearCart`. -/
theorem itemCount_balance (ops : List CartOp) (s : CartState) :
    (getItemCount (execOps s ops) + removedCount s ops =
      getItemCount s + addsCount ops ∧
    getItemCount s = s.cart.length) ∧
    (∀ i : ℤ, ¬(0 ≤ i ∧ i < (s.cart.length : ℤ)) →
      getItemCount ((removeItem i s).1) = getItemCount s) := by
  refine ⟨⟨?_, rfl⟩, fun i hi => by simp [removeItem, hi]⟩
  induction ops generalizing s with
  | nil => simp [execOps, removedCount, addsCount]
  | cons op ops ih =>
    have hstep := applyOp_count s op
    have hadds : addsCount (op :: ops) = isAdd op + addsCount ops := by
      cases op <;> simp [addsCount, List.filter, isAdd, Nat.add_comm]
    have htail := ih (applyOp s op)
    simp only [execOps, List.foldl_cons] at htail ⊢
    rw [hadds, removedCount]
    omega

/-- C1 witness: a concrete run — two adds, an in-range remove, an
out-of-range remove, a clear — balances, and `removeItem(-1)` on a
one-item cart leaves the count at 1. -/
theorem itemCount_balance_witness :
    (getItemCount (execOps ⟨[], none⟩
        [.add ⟨.undef, .strV "A", .numV (some 1), .undef, .undef⟩ 1,
         .add ⟨.undef, .strV "B", .numV (some 2), .undef, .undef⟩ 2,
         .remove 0, .remove 9, .clear]) +
      removedCount ⟨[], none⟩
        [.add ⟨.undef, .strV "A", .numV (some 1), .undef, .undef⟩ 1,
         .add ⟨.undef, .strV "B", .numV (some 2), .undef, .undef⟩ 2,
         .remove 0, .remove 9, .clear] =
      getItemCount ⟨[], none⟩ + addsCount
        [.add ⟨.undef, .strV "A", .numV (some 1), .undef, .undef⟩ 1,
         .add ⟨.undef, .strV "B", .numV (some 2), .undef, .undef⟩ 2,
         .remove 0, .remove 9, .clear]) ∧
    ¬((0 : ℤ) ≤ -1 ∧ (-1 : ℤ) < ((⟨[⟨.strV "a", .strV "A", some 1, .strV "",
        .strV "product"⟩], none⟩ : CartState)).cart.length) ∧
    getItemCount ((removeItem (-1) ⟨[⟨.strV "a", .strV "A", some 1, .strV "",
        .strV "product"⟩], none⟩).1) =
      getItemCount ⟨[⟨.strV "a", .strV "A", some 1, .strV "",
        .strV "product"⟩], none⟩ :=
  ⟨(itemCount_balance _ ⟨[], none⟩).1.1, by decide,
    (itemCount_balance [] _).2 (-1) (by decide)⟩

/-- C2: `getTotal` is the (NaN-propagating) sum of the `price` field over
all items in the cart; on a list of genuine numeric prices it is the
rational sum, and it is `0` on an empty cart. -/
theorem getTotal_eq_sum (s : CartState) :
    getTotal s = sumPrices (s.cart.map StoredItem.price) ∧
    (∀ qs : List ℚ, s.cart.map StoredItem.price = qs.map some →
      getTotal s = some qs.sum) ∧
    (s.cart = [] → getTotal s = some 0) := by
  have hfold : getTotal s = sumPrices (s.cart.map StoredItem.price) := by
    unfold getTotal
    rw [show (fun acc e => jsAdd acc e.price) =
        (fun acc (e : StoredItem) => jsAdd acc (StoredItem.price e)) from rfl,
      ← List.foldl_map, foldl_jsAdd_eq]
    cases hsp : sumPrices (s.cart.map StoredItem.price) <;> simp [jsAdd]
  refine ⟨hfold, ?_, ?_⟩
  · intro qs hqs
    rw [hfold, hqs, sumPrices_map_some]
  · intro hnil
    rw [hfold, hnil]
    simp [sumPrices]

/-- C2 witness: the two scenario prices 2.50 and 3.25 sum to 5.75, and the
empty cart totals 0. -/
theorem getTotal_eq_sum_witness :
    ((⟨[⟨.strV "a", .strV "A", some (5/2), .strV "", .strV "product"⟩,
       ⟨.strV "b", .strV "B", some (13/4), .strV "", .strV "product"⟩],
       none⟩ : CartState).cart.map StoredItem.price =
        [(5 : ℚ)/2, 13/4].map some) ∧
    getTotal ⟨[⟨.strV "a", .strV "A", some (5/2), .strV "", .strV "product"⟩,
       ⟨.strV "b", .strV "B", some (13/4), .strV "", .strV "product"⟩],
       none⟩ = some ([(5 : ℚ)/2, 13/4].sum) ∧
    getTotal ⟨[], none⟩ = some 0 :=
  ⟨rfl,
    (getTotal_eq_sum _).2.1 [5/2, 13/4] rfl,
    (getTotal_eq_sum ⟨[], none⟩).2.2 rfl⟩

/-- C5: an in-range `removeItem(index)` deletes exactly the entry at that
position — one entry shorter, entries before `index` untouched, entries
after shifted down by one — while an out-of-range index leaves the whole
state unchanged and emits nothing (a silent no-op). -/
theorem removeItem_spec (i : ℤ) (s : CartState) :
    (0 ≤ i ∧ i < (s.cart.length : ℤ) →
      (removeItem i s).1.cart.length + 1 = s.cart.length ∧
      (∀ j : ℕ, (j : ℤ) < i → (removeItem i s).1.cart[j]? = s.cart[j]?) ∧
      (∀ j : ℕ, i ≤ (j : ℤ) → (removeItem i s).1.cart[j]? = s.cart[j + 1]?)) ∧
    (¬(0 ≤ i ∧ i < (s.cart.length : ℤ)) → removeItem i s = (s, none)) := by
  constructor
  · intro h
    have hlt : i.toNat < s.cart.length := by omega
    have hle : i.toNat ≤ s.cart.length := le_of_lt hlt
    have hcart : (removeItem i s).1.cart =
        s.cart.take i.toNat ++ s.cart.drop (i.toNat + 1) := by
      simp [removeItem, h, saveCart]
    have htklen : (s.cart.take i.toNat).length = i.toNat := by
      simp [List.length_take, Nat.min_eq_left hle]
    refine ⟨?_, ?_, ?_⟩
    · rw [hcart]
      exact removeItem_length s.cart i h.1 h.2
    · intro j hj
      have hji : j < i.toNat := by omega
      rw [hcart, List.getElem?_append_left (by omega),
        List.getElem?_take_of_lt hji]
    · intro j hj
      have hji : i.toNat ≤ j := by omega
      rw [hcart, List.getElem?_append_right (by omega), htklen,
        List.getElem?_drop]
      congr 1
      omega
  · intro h
    simp [removeItem, h]

/-- C5 witness: removing index 0 from a two-item cart keeps exactly the
second item, and `removeItem(5)` on the same cart changes nothing. -/
theorem removeItem_spec_witness :
    ((0 : ℤ) ≤ 0 ∧ (0 : ℤ) < ((⟨[⟨.strV "a", .strV "A", some 1, .strV "",
        .strV "product"⟩, ⟨.strV "b", .strV "B", some 2, .strV "",
        .strV "product"⟩], none⟩ : CartState)).cart.length ∧
      (removeItem 0 ⟨[⟨.strV "a", .strV "A", some 1, .strV "", .strV "product"⟩,
        ⟨.strV "b", .strV "B", some 2, .strV "", .strV "product"⟩],
        none⟩).1.cart.length + 1 = 2 ∧
      (removeItem 0 ⟨[⟨.strV "a", .strV "A", some 1, .strV "", .strV "product"⟩,
        ⟨.strV "b", .strV "B", some 2, .strV "", .strV "product"⟩],
        none⟩).1.cart[0]? =
        some ⟨.strV "b", .strV "B", some 2, .strV "", .strV "product"⟩) ∧
    removeItem 5 ⟨[⟨.strV "a", .strV "A", some 1, .strV "", .strV "product"⟩,
        ⟨.strV "b", .strV "B", some 2, .strV "", .strV "product"⟩], none⟩ =
      (⟨[⟨.strV "a", .strV "A", some 1, .strV "", .strV "product"⟩,
        ⟨.strV "b", .strV "B", some 2, .strV "", .strV "product"⟩], none⟩,
        none) := by
  have h1 := (removeItem_spec 0 ⟨[⟨.strV "a", .strV "A", some 1, .strV "",
    .strV "product"⟩, ⟨.strV "b", .strV "B", some 2, .strV "",
    .strV "product"⟩], none⟩).1 (by constructor <;> decide)
  have h2 := (removeItem_spec 5 ⟨[⟨.strV "a", .strV "A", some 1, .strV "",
    .strV "product"⟩, ⟨.strV "b", .strV "B", some 2, .strV "",
    .strV "product"⟩], none⟩).2 (by decide)
  exact ⟨⟨by decide, by decide, h1.1, by rw [h1.2.2 0 (by decide)]; rfl⟩, h2⟩

/-- C4 counterexample: `addItem` does *not* coerce the price to a
non-negative number — passing the number `-5` stores the price `-5`,
which is negative.  (`parseFloat` preserves sign and also lets `NaN`
through; the claim's "non-negative" is refuted at this input.) -/
theorem addItem_negative_price :
    (addItem ⟨.strV "x", .strV "Thing", .numV (some (-5)), .strV "d",
        .strV "t"⟩ 0 ⟨[], none⟩).1.cart.map StoredItem.price =
      [some (-5 : ℚ)] ∧
    ((-5 : ℚ) < 0) := by
  constructor
  · rfl
  · norm_num

/-- C4 (amended): `addItem` appends exactly one normalized entry at the
end — a falsy (in particular missing) `id` is replaced by the generated
`item-${Date.now()}` string, and the price is coerced to a JS number by
`parseFloat` (possibly negative or NaN) — while all previously present
items are unchanged and keep their positions. -/
theorem addItem_appends (it : InputItem) (now : ℕ) (s : CartState) :
    (addItem it now s).1.cart.length = s.cart.length + 1 ∧
    (∀ j : ℕ, j < s.cart.length →
      (addItem it now s).1.cart[j]? = s.cart[j]?) ∧
    (addItem it now s).1.cart.getLast? = some (normalizeItem it now) ∧
    (truthy it.id = false → (normalizeItem it now).id = genId now) ∧
    (normalizeItem it now).price = parseFloat it.price := by
  refine ⟨?_, ?_, ?_, ?_, rfl⟩
  · simp [addItem, saveCart]
  · intro j hj
    simp only [addItem, saveCart]
    rw [List.getElem?_append_left hj]
  · simp [addItem, saveCart, List.getLast?_concat]
  · intro h
    simp [normalizeItem, h]

/-- C4 witness: adding an item with no `id` to a one-item cart at clock 7
leaves the old item at position 0 and appends the generated-id entry. -/
theorem addItem_appends_witness :
    (addItem ⟨.undef, .strV "New", .numV (some 3), .undef, .undef⟩ 7
        ⟨[⟨.strV "a", .strV "Old", some 1, .strV "", .strV "product"⟩],
          none⟩).1.cart.length = 1 + 1 ∧
    (addItem ⟨.undef, .strV "New", .numV (some 3), .undef, .undef⟩ 7
        ⟨[⟨.strV "a", .strV "Old", some 1, .strV "", .strV "product"⟩],
          none⟩).1.cart[0]? =
      some ⟨.strV "a", .strV "Old", some 1, .strV "", .strV "product"⟩ ∧
    (normalizeItem ⟨.undef, .strV "New", .numV (some 3), .undef, .undef⟩ 7).id =
      genId 7 := by
  have h := addItem_appends ⟨.undef, .strV "New", .numV (some 3), .undef,
    .undef⟩ 7 ⟨[⟨.strV "a", .strV "Old", some 1, .strV "", .strV "product"⟩],
    none⟩
  exact ⟨h.1, by rw [h.2.1 0 (by decide)]; rfl, h.2.2.2.1 rfl⟩

/-- C10: every entry `addItem` appends has all five fields set: a falsy
(e.g. missing) `description` becomes `''`, a falsy `type` becomes
`'product'`, and `name` is copied through verbatim — including the case
where it is absent and stays `undefined`. -/
theorem addItem_field_defaults (it : InputItem) (now : ℕ) (s : CartState) :
    (addItem it now s).1.cart.getLast? = some (normalizeItem it now) ∧
    (truthy it.description = false →
      (normalizeItem it now).description = .strV "") ∧
    (truthy it.type = false → (normalizeItem it now).type = .strV "product") ∧
    (normalizeItem it now).name = it.name := by
  refine ⟨?_, ?_, ?_, rfl⟩
  · simp [addItem, saveCart, List.getLast?_concat]
  · intro h
    simp [normalizeItem, h]
  · intro h
    simp [normalizeItem, h]

/-- C10 witness: an input with absent description, type and name is
stored with `description = ''`, `type = 'product'` and
`name = undefined`. -/
theorem addItem_field_defaults_witness :
    (addItem ⟨.strV "i", .undef, .numV (some 2), .undef, .undef⟩ 3
        ⟨[], none⟩).1.cart.getLast? =
      some (normalizeItem ⟨.strV "i", .undef, .numV (some 2), .undef,
        .undef⟩ 3) ∧
    (normalizeItem ⟨.strV "i", .undef, .numV (some 2), .undef, .undef⟩
        3).description = .strV "" ∧
    (normalizeItem ⟨.strV "i", .undef, .numV (some 2), .undef, .undef⟩
        3).type = .strV "product" ∧
    (normalizeItem ⟨.strV "i", .undef, .numV (some 2), .undef, .undef⟩
        3).name = .undef := by
  have h := addItem_field_defaults ⟨.strV "i", .undef, .numV (some 2), .undef,
    .undef⟩ 3 ⟨[], none⟩
  exact ⟨h.1, h.2.1 rfl, h.2.2.1 rfl, h.2.2.2⟩

/-- C6: `checkout()` on an empty cart only signals the empty-cart message
and leaves the state (cart and store) untouched; on a non-empty cart it
reports the total as of before clearing and empties the cart. -/
theorem checkout_spec (s : CartState) :
    (getItemCount s = 0 → checkout s = (s, .emptyCart)) ∧
    (getItemCount s ≠ 0 →
      (checkout s).1.cart = [] ∧ (checkout s).2 = .order (getTotal s)) := by
  constructor
  · intro h
    simp [checkout, h]
  · intro h
    simp [checkout, h, clearCart, saveCart]

/-- C6 witness: checkout on the empty cart is a no-op with the empty-cart
message; checkout on a one-item cart clears it and reports its prior
total. -/
theorem checkout_spec_witness :
    (getItemCount ⟨[], none⟩ = 0 ∧
      checkout ⟨[], none⟩ = (⟨[], none⟩, .emptyCart)) ∧
    (getItemCount ⟨[⟨.strV "a", .strV "A", some 1, .strV "",
        .strV "product"⟩], none⟩ ≠ 0 ∧
      (checkout ⟨[⟨.strV "a", .strV "A", some 1, .strV "",
        .strV "product"⟩], none⟩).1.cart = [] ∧
      (checkout ⟨[⟨.strV "a", .strV "A", some 1, .strV "",
        .strV "product"⟩], none⟩).2 =
        .order (getTotal ⟨[⟨.strV "a", .strV "A", some 1, .strV "",
          .strV "product"⟩], none⟩)) :=
  ⟨⟨rfl, (checkout_spec ⟨[], none⟩).1 rfl⟩,
    ⟨by decide, (checkout_spec _).2 (by decide)⟩⟩

theorem isStrV_iff (v : JSValue) : isStrV v = true ↔ ∃ s, v = .strV s := by
  cases v <;> simp [isStrV]

/-- Serializing one well-formed entry and reading its fields back off the
parsed object reproduces it exactly. -/
theorem itemOfJson_itemToJson (e : StoredItem) (h : wfItem e = true) :
    itemOfJson (itemToJson e) = some e := by
  obtain ⟨i, n, p, d, t⟩ := e
  simp only [wfItem, Bool.and_eq_true] at h
  obtain ⟨⟨⟨⟨hi, hn⟩, hp⟩, hd⟩, ht⟩ := h
  rw [isStrV_iff] at hi hn hd ht
  obtain ⟨a, rfl⟩ := hi
  obtain ⟨b, rfl⟩ := hn
  obtain ⟨c, rfl⟩ := hd
  obtain ⟨dd, rfl⟩ := ht
  obtain ⟨q, rfl⟩ := Option.isSome_iff_exists.mp hp
  rfl

/-- Serializing a whole well-formed cart and reading it back reproduces
the same ordered list. -/
theorem cartOfJson_cartToJson (c : List StoredItem)
    (h : ∀ e ∈ c, wfItem e = true) :
    cartOfJson (cartToJson c) = some c := by
  induction c with
  | nil => rfl
  | cons e c ih =>
    have he := h e (List.mem_cons_self e c)
    have hc := ih fun x hx => h x (List.mem_cons_of_mem e hx)
    simp only [cartToJson, cartOfJson] at hc
    simp only [cartToJson, List.map_cons, cartOfJson, itemsOfJson,
      itemOfJson_itemToJson e he, hc]

/-- C3: round-trip persistence.  `saveCart` serializes the in-memory
items into the store; reading the (uncorrupted) stored JSON back yields
an identical ordered item list, field for field, for every cart whose
entries have the `CartItem` shape. -/
theorem saveCart_load_roundtrip (s : CartState)
    (h : ∀ e ∈ s.cart, wfItem e = true) :
    ∀ j, (saveCart s).store = some j → cartOfJson j = some s.cart := by
  intro j hj
  have : j = cartToJson s.cart := by
    simpa [saveCart] using hj.symm
  rw [this]
  exact cartOfJson_cartToJson s.cart h

/-- C3 witness: a concrete two-item cart survives the save/load round
trip unchanged. -/
theorem saveCart_load_roundtrip_witness :
    (∀ e ∈ (⟨[⟨.strV "a", .strV "Skill Recovery", some (499/100), .strV "x",
        .strV "product"⟩, ⟨.strV "b", .strV "Tip", some (13/4), .strV "",
        .strV "service"⟩], none⟩ : CartState).cart, wfItem e = true) ∧
    cartOfJson (cartToJson
      [⟨.strV "a", .strV "Skill Recovery", some (499/100), .strV "x",
        .strV "product"⟩, ⟨.strV "b", .strV "Tip", some (13/4), .strV "",
        .strV "service"⟩]) =
      some [⟨.strV "a", .strV "Skill Recovery", some (499/100), .strV "x",
        .strV "product"⟩, ⟨.strV "b", .strV "Tip", some (13/4), .strV "",
        .strV "service"⟩] :=
  ⟨by decide,
    saveCart_load_roundtrip ⟨[⟨.strV "a", .strV "Skill Recovery",
      some (499/100), .strV "x", .strV "product"⟩, ⟨.strV "b", .strV "Tip",
      some (13/4), .strV "", .strV "service"⟩], none⟩ (by decide) _ rfl⟩

/-- C7: `loadCart` is a total function of the stored string (the
`try`/`catch` traps both a throwing storage read and a throwing
`JSON.parse`), and whenever the key is absent, the stored string is
empty, or it fails to parse as JSON, it returns the empty list. -/
theorem loadCart_malformed :
    loadCart none = .jarr [] ∧
    loadCart (some "") = .jarr [] ∧
    ∀ s, jsonParse s = none → loadCart (some s) = .jarr [] := by
  refine ⟨rfl, rfl, fun s h => ?_⟩
  by_cases hs : s = ""
  · subst hs
    rfl
  · simp [loadCart, hs, h]

/-- C7 witness: the unparseable stored string `"not json"` loads as the
empty list. -/
theorem loadCart_malformed_witness :
    jsonParse "not json" = none ∧ loadCart (some "not json") = .jarr [] :=
  ⟨rfl, loadCart_malformed.2.2 "not json" rfl⟩

/-- C8: whenever the fetch pipeline fails (network rejection, non-ok
response, or a body that is not JSON), `loadJSON` — a total function, so
nothing propagates to the caller — returns the empty mapping for
`content.json` and the empty sequence for every other document name. -/
theorem loadJSON_failure (filename : String) :
    loadJSON filename .netError =
      (if filename = "content.json" then Json.jobj [] else .jarr []) ∧
    loadJSON filename .httpError =
      (if filename = "content.json" then Json.jobj [] else .jarr []) ∧
    loadJSON filename .parseError =
      (if filename = "content.json" then Json.jobj [] else .jarr []) :=
  ⟨rfl, rfl, rfl⟩

/-- C9: once the first `loadContent()` has completed with a mapping,
every later `loadContent()` returns that same mapping without fetching
and leaves the state unchanged, whereas `loadMods`/`loadTools`/`loadTips`
fetch on every single call (`useCache` is hard-wired off). -/
theorem loadContent_memoizes :
    (∀ (r : FetchResult) (fs : List (String × Json)),
      loadJSON "content.json" r = .jobj fs →
      loadContent initLoader r = ({ content := .jobj fs }, .jobj fs, true) ∧
      ∀ r', loadContent { content := .jobj fs } r' =
        ({ content := .jobj fs }, .jobj fs, false)) ∧
    (∀ (st : LoaderState) (r : FetchResult),
      (loadMods st r).2.2 = true ∧ (loadTools st r).2.2 = true ∧
      (loadTips st r).2.2 = true) := by
  refine ⟨fun r fs h => ⟨?_, fun r' => ?_⟩, fun st r => ⟨rfl, rfl, rfl⟩⟩
  · simp [loadContent, initLoader, truthyJson, h]
  · simp [loadContent, truthyJson]

/-- C9 witness: after a successful first fetch of a one-key mapping, a
second call with the network down still returns that mapping without
fetching; `loadMods` fetches even then. -/
theorem loadContent_memoizes_witness :
    (loadJSON "content.json" (.success (.jobj [("k", .jstr "v")])) =
      .jobj [("k", .jstr "v")]) ∧
    (loadContent { content := .jobj [("k", .jstr "v")] } .netError =
      ({ content := .jobj [("k", .jstr "v")] }, .jobj [("k", .jstr "v")],
        false)) ∧
    (loadMods initLoader .netError).2.2 = true :=
  ⟨rfl,
    (loadContent_memoizes.1 (.success (.jobj [("k", .jstr "v")]))
      [("k", .jstr "v")] rfl).2 .netError,
    (loadContent_memoizes.2 initLoader .netError).1⟩

end PZ
